import Mathlib

/-!
# AABB-3D: the intersection test, the physics step and the fixed-timestep scheduler

A shallow embedding of `src/AABB3D/Main.cpp`.

* Scalars (`float`, `double`) are exact rationals.  The comparisons of
  `TestAABB` are exact on finite floating-point values, so on those the
  embedding and the code agree; the scheduler claims are stated for exact
  arithmetic.
* `glm::vec3` is `Vec3`; the `AABB` record has the two corners `min` and `max`
  that `TestAABB` reads.
* `GameObject.h` is not among the sources.  A `GameObject` carries the fields
  that `update` reads and writes; how a rotation composes and how the box is
  computed from the transform are parameters (`Geometry`).
* The globals of Main.cpp become the records `World` (the two objects and
  `antiStuck`) and `Clock` (the timing variables).  The matrices `MVP`, `MVP2`
  and the window title are outputs for the renderer and are left out.
* The `while` loop of `checkTime` takes fuel and returns `none` when the fuel
  runs out, so that a loop that never ends is not given a result.
* The main loop's repeated calls of `checkTime` are `frames`, over the list of
  the times read from `glfwGetTime()`.
-/

namespace AABB3D

/-- Three scalar components, as `glm::vec3`. -/
structure Vec3 where
  x : ℚ
  y : ℚ
  z : ℚ
deriving DecidableEq, Repr

/-- The bounding box record read by `TestAABB`: two corners, no ordering
enforced by the type. -/
structure AABB where
  min : Vec3
  max : Vec3
deriving DecidableEq, Repr

/-- The data-model invariant of a box: `min <= max` on every axis. -/
def AABB.Valid (a : AABB) : Prop :=
  a.min.x ≤ a.max.x ∧ a.min.y ≤ a.max.y ∧ a.min.z ≤ a.max.z

/-- The function `bool TestAABB(AABB a, AABB b)` of Main.cpp, lines 66-74:
three early returns, one per axis, then `true`. -/
def TestAABB (a b : AABB) : Bool :=
  if a.max.x < b.min.x ∨ a.min.x > b.max.x then false
  else if a.max.y < b.min.y ∨ a.min.y > b.max.y then false
  else if a.max.z < b.min.z ∨ a.min.z > b.max.z then false
  else true

/-- The cube `[lo, hi]^3`. -/
def cubeBox (lo hi : ℚ) : AABB :=
  ⟨⟨lo, lo, lo⟩, ⟨hi, hi, hi⟩⟩

/-- The reading of the intersection test with non-strict separation: on every
axis neither `a.max <= b.min` nor `a.min >= b.max`. -/
def StrictOverlap (a b : AABB) : Prop :=
  (¬ a.max.x ≤ b.min.x ∧ ¬ a.min.x ≥ b.max.x) ∧
  (¬ a.max.y ≤ b.min.y ∧ ¬ a.min.y ≥ b.max.y) ∧
  (¬ a.max.z ≤ b.min.z ∧ ¬ a.min.z ≥ b.max.z)

/-- What the code tests: on every axis neither `a.max < b.min` nor
`a.min > b.max`. -/
def ClosedOverlap (a b : AABB) : Prop :=
  (¬ a.max.x < b.min.x ∧ ¬ a.min.x > b.max.x) ∧
  (¬ a.max.y < b.min.y ∧ ¬ a.min.y > b.max.y) ∧
  (¬ a.max.z < b.min.z ∧ ¬ a.min.z > b.max.z)

/-! ## Game objects and the physics step -/

/-- The C library's `fabsf`. -/
def fabsf (x : ℚ) : ℚ :=
  if x < 0 then -x else x

/-- Component-wise sum, `glm::vec3 + glm::vec3`. -/
def Vec3.add (p q : Vec3) : Vec3 :=
  ⟨p.x + q.x, p.y + q.y, p.z + q.z⟩

/-- Scaling by a scalar, `glm::vec3 * float`. -/
def Vec3.smul (k : ℚ) (p : Vec3) : Vec3 :=
  ⟨k * p.x, k * p.y, k * p.z⟩

/-- Modelled from the spec: the `GameObject` class (GameObject.h is missing).
A body couples a transform (position, orientation, scale), a velocity and
its bounding box; `Ω` is the representation of orientations. -/
structure GameObject (Ω : Type) where
  position : Vec3
  velocity : Vec3
  scale : Vec3
  orientation : Ω
  box : AABB

/-- Modelled from the spec: the two routines of the missing GameObject.h whose
arithmetic `update` does not see.  `rotate` composes an Euler increment
(given in degrees, before `glm::radians`) with an orientation; `bounds`
gives the component-wise min and max of the mesh vertices transformed by
translate * rotate * scale. -/
structure Geometry (Ω : Type) where
  rotate : Vec3 → Ω → Ω
  bounds : Vec3 → Ω → Vec3 → AABB

/-- Modelled from the spec: `GameObject::SetVelocity` stores the velocity. -/
def GameObject.SetVelocity {Ω : Type} (o : GameObject Ω) (v : Vec3) : GameObject Ω :=
  { o with velocity := v }

/-- Modelled from the spec: `GameObject::Rotate` composes the incremental
rotation with the orientation and touches nothing else. -/
def GameObject.Rotate {Ω : Type} (G : Geometry Ω) (o : GameObject Ω) (euler : Vec3) :
    GameObject Ω :=
  { o with orientation := G.rotate euler o.orientation }

/-- Modelled from the spec: `GameObject::CalculateAABB` recomputes the box
from the current transform. -/
def GameObject.CalculateAABB {Ω : Type} (G : Geometry Ω) (o : GameObject Ω) :
    GameObject Ω :=
  { o with box := G.bounds o.position o.orientation o.scale }

/-- Modelled from the spec: `GameObject::Update(dt)` integrates the position,
`position += velocity * dt`. -/
def GameObject.Update {Ω : Type} (o : GameObject Ω) (dt : ℚ) : GameObject Ω :=
  { o with position := o.position.add (Vec3.smul dt o.velocity) }

/-- The simulation globals: `obj1` (stationary), `obj2` (moving) and the
latch `antiStuck`. -/
structure World (Ω : Type) where
  obj1 : GameObject Ω
  obj2 : GameObject Ω
  antiStuck : Bool

/-- Lines 80-98 of `update`: the three boundary checks on `obj2`.  All three
read the position fetched once at the start; each reads the velocity as the
previous check left it. -/
def boundaryPhase {Ω : Type} (w : World Ω) : World Ω :=
  let tempPos := w.obj2.position
  let w1 : World Ω :=
    if fabsf tempPos.x > 9/10 then
      let tempVel := w.obj2.velocity
      { w with obj2 := w.obj2.SetVelocity ⟨-1 * tempVel.x, tempVel.y, tempVel.z⟩ }
    else w
  let w2 : World Ω :=
    if fabsf tempPos.y > 8/10 then
      let tempVel := w1.obj2.velocity
      { w1 with obj2 := w1.obj2.SetVelocity ⟨tempVel.x, -1 * tempVel.y, tempVel.z⟩ }
    else w1
  if fabsf tempPos.z > 1 then
    let tempVel := w2.obj2.velocity
    { w2 with obj2 := w2.obj2.SetVelocity ⟨tempVel.x, tempVel.y, -1 * tempVel.z⟩ }
  else w2

/-- Lines 101-102 of `update`: both objects rotate by (1, 1, 0) degrees. -/
def rotatePhase {Ω : Type} (G : Geometry Ω) (w : World Ω) : World Ω :=
  { w with obj1 := w.obj1.Rotate G ⟨1, 1, 0⟩, obj2 := w.obj2.Rotate G ⟨1, 1, 0⟩ }

/-- Lines 109-110 of `update`: both boxes are recomputed. -/
def aabbPhase {Ω : Type} (G : Geometry Ω) (w : World Ω) : World Ω :=
  { w with obj1 := w.obj1.CalculateAABB G, obj2 := w.obj2.CalculateAABB G }

/-- The state on entry to the collision phase of one call of `update`. -/
def preCollision {Ω : Type} (G : Geometry Ω) (w : World Ω) : World Ω :=
  aabbPhase G (rotatePhase G (boundaryPhase w))

/-- The guard of line 112: `TestAABB(obj1->GetAABB(), obj2->GetAABB()) && !antiStuck`. -/
def collisionFires {Ω : Type} (w : World Ω) : Bool :=
  TestAABB w.obj1.box w.obj2.box && !w.antiStuck

/-- Lines 112-132 of `update`: the collision response and the latch. -/
def collisionPhase {Ω : Type} (w : World Ω) : World Ω :=
  if collisionFires w then
    let velocity := w.obj2.velocity
    let velocity : Vec3 := { velocity with x := velocity.x * -1 }
    { w with obj2 := w.obj2.SetVelocity velocity, antiStuck := true }
  else
    { w with antiStuck := false }

/-- Lines 134-135 of `update`: both objects integrate their position. -/
def integratePhase {Ω : Type} (dt : ℚ) (w : World Ω) : World Ω :=
  { w with obj1 := w.obj1.Update dt, obj2 := w.obj2.Update dt }

/-- The function `void update(float dt)` of Main.cpp, lines 77-140, as the
sequence of its phases. -/
def update {Ω : Type} (G : Geometry Ω) (dt : ℚ) (w : World Ω) : World Ω :=
  integratePhase dt (collisionPhase (preCollision G w))

/-- The result of the intersection test in the call of `update` that starts
in `w`. -/
def overlapAt {Ω : Type} (G : Geometry Ω) (w : World Ω) : Bool :=
  TestAABB (preCollision G w).obj1.box (preCollision G w).obj2.box

/-- Whether the call of `update` that starts in `w` takes the reflecting
branch of the collision phase. -/
def reflectsAt {Ω : Type} (G : Geometry Ω) (w : World Ω) : Bool :=
  collisionFires (preCollision G w)

/-- The world after `n` consecutive calls of `update`. -/
def steps {Ω : Type} (G : Geometry Ω) (dt : ℚ) : ℕ → World Ω → World Ω
  | 0, w => w
  | n + 1, w => steps G dt n (update G dt w)

/-- How many of the next `n` calls of `update` take the reflecting branch. -/
def reflections {Ω : Type} (G : Geometry Ω) (dt : ℚ) : ℕ → World Ω → ℕ
  | 0, _ => 0
  | n + 1, w => (if reflectsAt G w then 1 else 0) + reflections G dt n (update G dt w)

/-- The velocity with its X component negated. -/
def Vec3.negX (v : Vec3) : Vec3 :=
  ⟨-v.x, v.y, v.z⟩

/-! ## The scheduler -/

/-- The timing globals of Main.cpp, lines 51-57. -/
structure Clock where
  frame : ℤ
  time : ℚ
  timebase : ℚ
  accumulator : ℚ
  fps : ℤ
  FPSTime : ℚ
  physicsStep : ℚ
deriving DecidableEq, Repr

/-- Conversion of a `double` to `int`: truncation toward zero. -/
def truncToInt (q : ℚ) : ℤ :=
  if 0 ≤ q then ⌊q⌋ else ⌈q⌉

/-- The `while (accumulator >= physicsStep)` loop of `checkTime`, lines
183-188, over any simulated state `σ` with step function `upd`.  Returns the
accumulator and the state when the loop exits, `none` when the fuel runs out
first. -/
def drain {σ : Type} (upd : ℚ → σ → σ) (physicsStep : ℚ) : ℕ → ℚ → σ → Option (ℚ × σ)
  | 0, _, _ => none
  | fuel + 1, accumulator, w =>
    if accumulator ≥ physicsStep then
      drain upd physicsStep fuel (accumulator - physicsStep) (upd physicsStep w)
    else
      some (accumulator, w)

/-- Lines 156-167 of `checkTime`: the frames-per-second bookkeeping, run once
more than a second has passed since `FPSTime`. -/
def fpsPhase (c : Clock) : Clock :=
  if c.time - c.FPSTime > 1 then
    { c with fps := truncToInt (c.frame / (c.time - c.FPSTime)), FPSTime := c.time, frame := 0 }
  else c

/-- The function `void checkTime()` of Main.cpp, lines 143-190; `now` is the
value read from `glfwGetTime()`. -/
def checkTime {σ : Type} (upd : ℚ → σ → σ) (fuel : ℕ) (now : ℚ) (c : Clock) (w : σ) :
    Option (Clock × σ) :=
  let c1 : Clock := { c with time := now }
  let dt := c1.time - c1.timebase
  if dt > c1.physicsStep then
    let c2 : Clock := fpsPhase c1
    let c3 : Clock := { c2 with timebase := c2.time }
    let dt := if dt > 1/4 then 1/4 else dt
    let c4 : Clock := { c3 with accumulator := c3.accumulator + dt }
    match drain upd c4.physicsStep fuel c4.accumulator w with
    | some (accumulator, w') => some ({ c4 with accumulator := accumulator }, w')
    | none => none
  else
    some (c1, w)

/-- A step function that records the argument of every call. -/
def logUpdate (dt : ℚ) (log : List ℚ) : List ℚ :=
  dt :: log

/-- The main loop's successive calls of `checkTime`, one per entry of `times`
(the values read from `glfwGetTime()`), each starting from the globals the
previous one left; `none` as soon as one call runs out of fuel. -/
def frames {σ : Type} (upd : ℚ → σ → σ) (fuel : ℕ) : List ℚ → Clock → σ → Option (Clock × σ)
  | [], c, w => some (c, w)
  | now :: rest, c, w =>
    match checkTime upd fuel now c w with
    | some (c', w') => frames upd fuel rest c' w'
    | none => none

/-! ## Sample data -/

/-- The geometry of the cube mesh of `setupCube` (half-edge 1/4) when the
orientation is held fixed: the box is `position ± scale / 4`. -/
def fixedCube : Geometry Unit where
  rotate := fun _ o => o
  bounds := fun p _ s =>
    ⟨⟨p.x - s.x / 4, p.y - s.y / 4, p.z - s.z / 4⟩,
     ⟨p.x + s.x / 4, p.y + s.y / 4, p.z + s.z / 4⟩⟩

/-- The stationary object of `setupCube`: at the origin, scale 0.75. -/
def stillCube : GameObject Unit :=
  { position := ⟨0, 0, 0⟩, velocity := ⟨0, 0, 0⟩, scale := ⟨3/4, 3/4, 3/4⟩,
    orientation := (), box := cubeBox (-3/16) (3/16) }

/-- A moving object of scale 0.25 at the given position with the given
velocity. -/
def smallCube (p v : Vec3) : GameObject Unit :=
  { position := p, velocity := v, scale := ⟨1/4, 1/4, 1/4⟩,
    orientation := (), box := fixedCube.bounds p () ⟨1/4, 1/4, 1/4⟩ }

/-- The world set up by `setupCube`: `obj2` at x = 0.7 moving left at 0.9. -/
def startWorld : World Unit :=
  { obj1 := stillCube, obj2 := smallCube ⟨7/10, 0, 0⟩ ⟨-9/10, 0, 0⟩, antiStuck := false }

/-- The moving cube inside the stationary one's box, latch as given. -/
def overlapWorld (latch : Bool) : World Unit :=
  { obj1 := stillCube, obj2 := smallCube ⟨1/5, 0, 0⟩ ⟨-9/10, 0, 0⟩, antiStuck := latch }

/-- The moving cube (scale 0.25) at `p`, descending along Y at 12.5 units
per second with drift `vx` along X; its stored box is the one computed at
`q`. -/
def diveWorld (p : Vec3) (vx : ℚ) (q : Vec3) (latch : Bool) : World Unit :=
  { obj1 := stillCube,
    obj2 := { position := p, velocity := ⟨vx, -25/2, 0⟩, scale := ⟨1/4, 1/4, 1/4⟩,
              orientation := (), box := fixedCube.bounds q () ⟨1/4, 1/4, 1/4⟩ },
    antiStuck := latch }

/-- The moving cube above the stationary one at y = 0.3, about to descend
through its box; latch clear. -/
def divingWorld : World Unit :=
  diveWorld ⟨0, 3/10, 0⟩ (1/100) ⟨0, 3/10, 0⟩ false

/-- Both cubes at `(1, y, 0)`, beyond the X bound 0.9: the stationary one
(scale 0.75) and the moving one (scale 0.25) with velocity (0.5, 0.5, 0);
latch clear. -/
def wallWorld (y : ℚ) : World Unit :=
  { obj1 := { stillCube with position := ⟨1, y, 0⟩ },
    obj2 := smallCube ⟨1, y, 0⟩ ⟨1/2, 1/2, 0⟩,
    antiStuck := false }

/-- A moving cube past all three bounds, at (1, 1, 2), with velocity
(0.5, 0.25, 0.125); latch clear. -/
def cornerWorld : World Unit :=
  { obj1 := stillCube, obj2 := smallCube ⟨1, 1, 2⟩ ⟨1/2, 1/4, 1/8⟩, antiStuck := false }

/-- The timing globals at program start with the given physics step. -/
def startClock (physicsStep : ℚ) : Clock :=
  { frame := 0, time := 0, timebase := 0, accumulator := 0, fps := 0, FPSTime := 0,
    physicsStep := physicsStep }

/-! ## Helper lemmas -/

theorem TestAABB_eq_true_iff (a b : AABB) :
    TestAABB a b = true ↔
      (a.max.x ≥ b.min.x ∧ a.min.x ≤ b.max.x) ∧
      (a.max.y ≥ b.min.y ∧ a.min.y ≤ b.max.y) ∧
      (a.max.z ≥ b.min.z ∧ a.min.z ≤ b.max.z) := by
  unfold TestAABB
  constructor
  · intro h
    split_ifs at h with hx hy hz
    push_neg at hx hy hz
    exact ⟨hx, hy, hz⟩
  · rintro ⟨⟨hx1, hx2⟩, ⟨hy1, hy2⟩, ⟨hz1, hz2⟩⟩
    have hx : ¬ (a.max.x < b.min.x ∨ a.min.x > b.max.x) := by
      push_neg; exact ⟨hx1, hx2⟩
    have hy : ¬ (a.max.y < b.min.y ∨ a.min.y > b.max.y) := by
      push_neg; exact ⟨hy1, hy2⟩
    have hz : ¬ (a.max.z < b.min.z ∨ a.min.z > b.max.z) := by
      push_neg; exact ⟨hz1, hz2⟩
    simp only [hx, hy, hz, if_false]

theorem TestAABB_eq_false_iff (a b : AABB) :
    TestAABB a b = false ↔
      ¬ ((a.max.x ≥ b.min.x ∧ a.min.x ≤ b.max.x) ∧
         (a.max.y ≥ b.min.y ∧ a.min.y ≤ b.max.y) ∧
         (a.max.z ≥ b.min.z ∧ a.min.z ≤ b.max.z)) := by
  rw [← TestAABB_eq_true_iff]
  cases TestAABB a b <;> simp

theorem boundaryPhase_antiStuck {Ω : Type} (w : World Ω) :
    (boundaryPhase w).antiStuck = w.antiStuck := by
  unfold boundaryPhase
  simp only
  split_ifs <;> rfl

theorem boundaryPhase_obj1 {Ω : Type} (w : World Ω) : (boundaryPhase w).obj1 = w.obj1 := by
  unfold boundaryPhase
  simp only
  split_ifs <;> rfl

theorem preCollision_antiStuck {Ω : Type} (G : Geometry Ω) (w : World Ω) :
    (preCollision G w).antiStuck = w.antiStuck := by
  simp [preCollision, aabbPhase, rotatePhase, boundaryPhase_antiStuck]

theorem preCollision_obj1_velocity {Ω : Type} (G : Geometry Ω) (w : World Ω) :
    (preCollision G w).obj1.velocity = w.obj1.velocity := by
  simp [preCollision, aabbPhase, rotatePhase, boundaryPhase_obj1, GameObject.CalculateAABB,
    GameObject.Rotate]

theorem preCollision_obj2_velocity {Ω : Type} (G : Geometry Ω) (w : World Ω) :
    (preCollision G w).obj2.velocity = (boundaryPhase w).obj2.velocity := by
  simp [preCollision, aabbPhase, rotatePhase, GameObject.CalculateAABB, GameObject.Rotate]

theorem reflectsAt_eq {Ω : Type} (G : Geometry Ω) (w : World Ω) :
    reflectsAt G w = (overlapAt G w && !w.antiStuck) := by
  simp [reflectsAt, collisionFires, overlapAt, preCollision_antiStuck]

theorem collisionPhase_antiStuck {Ω : Type} (p : World Ω) :
    (collisionPhase p).antiStuck = collisionFires p := by
  unfold collisionPhase
  cases h : collisionFires p <;> simp

theorem collisionPhase_obj1 {Ω : Type} (p : World Ω) : (collisionPhase p).obj1 = p.obj1 := by
  unfold collisionPhase
  cases h : collisionFires p <;> simp

theorem collisionPhase_obj2_velocity {Ω : Type} (p : World Ω) :
    (collisionPhase p).obj2.velocity =
      if collisionFires p then p.obj2.velocity.negX else p.obj2.velocity := by
  unfold collisionPhase
  cases h : collisionFires p <;> simp [GameObject.SetVelocity, Vec3.negX]

theorem update_antiStuck {Ω : Type} (G : Geometry Ω) (dt : ℚ) (w : World Ω) :
    (update G dt w).antiStuck = reflectsAt G w := by
  simp [update, integratePhase, collisionPhase_antiStuck, reflectsAt]

theorem update_obj1_velocity {Ω : Type} (G : Geometry Ω) (dt : ℚ) (w : World Ω) :
    (update G dt w).obj1.velocity = w.obj1.velocity := by
  simp [update, integratePhase, GameObject.Update, collisionPhase_obj1,
    preCollision_obj1_velocity]

theorem update_obj2_velocity {Ω : Type} (G : Geometry Ω) (dt : ℚ) (w : World Ω) :
    (update G dt w).obj2.velocity = (collisionPhase (preCollision G w)).obj2.velocity := by
  simp [update, integratePhase, GameObject.Update]

theorem steps_add_one {Ω : Type} (G : Geometry Ω) (dt : ℚ) (n : ℕ) (w : World Ω) :
    steps G dt (n + 1) w = steps G dt n (update G dt w) := rfl

/-- A run of overlapping steps: the latch alternates, so the reflecting branch
is taken on every second step, starting with the first when the latch is
clear and with the second when it is set. -/
theorem run_alternates {Ω : Type} (G : Geometry Ω) (dt : ℚ) (n : ℕ) :
    ∀ w : World Ω, (∀ i, i < n → overlapAt G (steps G dt i w) = true) →
      (w.antiStuck = false →
        reflections G dt n w = (n + 1) / 2 ∧
        ∀ i, i < n → (reflectsAt G (steps G dt i w) = true ↔ i % 2 = 0)) ∧
      (w.antiStuck = true →
        reflections G dt n w = n / 2 ∧
        ∀ i, i < n → (reflectsAt G (steps G dt i w) = true ↔ i % 2 = 1)) := by
  induction n with
  | zero =>
    intro w _
    exact ⟨fun _ => ⟨rfl, fun i hi => absurd hi (Nat.not_lt_zero i)⟩,
      fun _ => ⟨rfl, fun i hi => absurd hi (Nat.not_lt_zero i)⟩⟩
  | succ n ih =>
    intro w hrun
    have h0 : overlapAt G w = true := hrun 0 (Nat.succ_pos n)
    have hrest : ∀ i, i < n → overlapAt G (steps G dt i (update G dt w)) = true :=
      fun i hi => hrun (i + 1) (Nat.succ_lt_succ hi)
    obtain ⟨ihF, ihT⟩ := ih (update G dt w) hrest
    constructor
    · intro hl
      have hr : reflectsAt G w = true := by rw [reflectsAt_eq, h0, hl]; rfl
      have hl' : (update G dt w).antiStuck = true := by rw [update_antiStuck, hr]
      obtain ⟨hc, hp⟩ := ihT hl'
      refine ⟨?_, ?_⟩
      · simp only [reflections, hr, if_true, hc]
        omega
      · intro i hi
        cases i with
        | zero => simpa [steps] using hr
        | succ j =>
          rw [steps_add_one, hp j (Nat.lt_of_succ_lt_succ hi)]
          omega
    · intro hl
      have hr : reflectsAt G w = false := by rw [reflectsAt_eq, h0, hl]; rfl
      have hl' : (update G dt w).antiStuck = false := by rw [update_antiStuck, hr]
      obtain ⟨hc, hp⟩ := ihF hl'
      refine ⟨?_, ?_⟩
      · simp only [reflections, hr, hc]
        simp
      · intro i hi
        cases i with
        | zero => simp [steps, hr]
        | succ j =>
          rw [steps_add_one, hp j (Nat.lt_of_succ_lt_succ hi)]
          omega

theorem dive_step1 :
    update fixedCube (3/250) divingWorld =
      diveWorld ⟨3/25000, 3/20, 0⟩ (1/100) ⟨0, 3/10, 0⟩ false := by
  simp [update, integratePhase, collisionPhase, collisionFires, GameObject.Update,
    Vec3.add, Vec3.smul, preCollision, aabbPhase, rotatePhase, boundaryPhase,
    divingWorld, diveWorld, fixedCube, GameObject.CalculateAABB, GameObject.Rotate,
    GameObject.SetVelocity, fabsf, stillCube, cubeBox, TestAABB]
  norm_num

theorem dive_step2 :
    update fixedCube (3/250) (diveWorld ⟨3/25000, 3/20, 0⟩ (1/100) ⟨0, 3/10, 0⟩ false) =
      diveWorld ⟨0, 0, 0⟩ (-1/100) ⟨3/25000, 3/20, 0⟩ true := by
  simp [update, integratePhase, collisionPhase, collisionFires, GameObject.Update,
    Vec3.add, Vec3.smul, preCollision, aabbPhase, rotatePhase, boundaryPhase,
    diveWorld, fixedCube, GameObject.CalculateAABB, GameObject.Rotate,
    GameObject.SetVelocity, fabsf, stillCube, cubeBox, TestAABB]
  norm_num

theorem dive_step3 :
    update fixedCube (3/250) (diveWorld ⟨0, 0, 0⟩ (-1/100) ⟨3/25000, 3/20, 0⟩ true) =
      diveWorld ⟨-3/25000, -3/20, 0⟩ (-1/100) ⟨0, 0, 0⟩ false := by
  simp [update, integratePhase, collisionPhase, collisionFires, GameObject.Update,
    Vec3.add, Vec3.smul, preCollision, aabbPhase, rotatePhase, boundaryPhase,
    diveWorld, fixedCube, GameObject.CalculateAABB, GameObject.Rotate,
    GameObject.SetVelocity, fabsf, stillCube, cubeBox, TestAABB]
  norm_num

theorem dive_overlap :
    overlapAt fixedCube divingWorld = false ∧
      overlapAt fixedCube (diveWorld ⟨3/25000, 3/20, 0⟩ (1/100) ⟨0, 3/10, 0⟩ false) = true ∧
      overlapAt fixedCube (diveWorld ⟨0, 0, 0⟩ (-1/100) ⟨3/25000, 3/20, 0⟩ true) = true ∧
      overlapAt fixedCube (diveWorld ⟨-3/25000, -3/20, 0⟩ (-1/100) ⟨0, 0, 0⟩ false) = true ∧
      overlapAt fixedCube (diveWorld ⟨0, -3/10, 0⟩ (1/100) ⟨-3/25000, -3/20, 0⟩ true) = false := by
  refine ⟨?_, ?_, ?_, ?_, ?_⟩ <;>
  · simp [overlapAt, preCollision, aabbPhase, rotatePhase, boundaryPhase,
      divingWorld, diveWorld, fixedCube, GameObject.CalculateAABB, GameObject.Rotate,
      GameObject.SetVelocity, fabsf, stillCube, cubeBox, TestAABB]
    norm_num

theorem drain_of_bounds {σ : Type} (upd : ℚ → σ → σ) (step : ℚ) (hstep : 0 < step) :
    ∀ (n fuel : ℕ) (acc : ℚ) (w : σ), step * n ≤ acc → acc < step * (n + 1) → n < fuel →
      drain upd step fuel acc w = some (acc - step * n, (upd step)^[n] w) := by
  intro n
  induction n with
  | zero =>
    intro fuel acc w _ hhi hfuel
    obtain ⟨f, rfl⟩ : ∃ f, fuel = f + 1 := ⟨fuel - 1, by omega⟩
    have hlt : ¬ acc ≥ step := by
      simp only [Nat.cast_zero, zero_add, mul_one] at hhi
      exact not_le.mpr hhi
    simp [drain, hlt]
  | succ n ih =>
    intro fuel acc w hlo hhi hfuel
    obtain ⟨f, rfl⟩ : ∃ f, fuel = f + 1 := ⟨fuel - 1, by omega⟩
    push_cast at hlo hhi
    have hn : (0 : ℚ) ≤ n := Nat.cast_nonneg n
    have hge : acc ≥ step := by nlinarith
    have h := ih f (acc - step) (upd step w) (by linarith) (by linarith) (by omega)
    simp only [drain, hge, if_true, h, Function.iterate_succ_apply]
    congr 2
    push_cast
    ring

theorem floor_step_bounds (step acc : ℚ) (hstep : 0 < step) (hacc : 0 ≤ acc) :
    ((⌊acc / step⌋.toNat : ℕ) : ℚ) = (⌊acc / step⌋ : ℚ) ∧
      step * (⌊acc / step⌋.toNat : ℕ) ≤ acc ∧ acc < step * ((⌊acc / step⌋.toNat : ℕ) + 1) := by
  have h0 : 0 ≤ ⌊acc / step⌋ := Int.floor_nonneg.mpr (div_nonneg hacc hstep.le)
  have hcast : ((⌊acc / step⌋.toNat : ℕ) : ℚ) = (⌊acc / step⌋ : ℚ) := by
    have : ((⌊acc / step⌋.toNat : ℕ) : ℤ) = ⌊acc / step⌋ := Int.toNat_of_nonneg h0
    exact_mod_cast this
  refine ⟨hcast, ?_, ?_⟩
  · rw [hcast]
    have := Int.floor_le (acc / step)
    calc step * (⌊acc / step⌋ : ℚ) ≤ step * (acc / step) := by
          exact mul_le_mul_of_nonneg_left this hstep.le
      _ = acc := by field_simp
  · rw [hcast]
    have := Int.lt_floor_add_one (acc / step)
    calc acc = step * (acc / step) := by field_simp
      _ < step * ((⌊acc / step⌋ : ℚ) + 1) := by
          exact mul_lt_mul_of_pos_left this hstep

theorem drain_floor {σ : Type} (upd : ℚ → σ → σ) (step acc : ℚ) (hstep : 0 < step)
    (hacc : 0 ≤ acc)
    (fuel : ℕ) (w : σ) (hfuel : ⌊acc / step⌋.toNat < fuel) :
    drain upd step fuel acc w =
      some (acc - step * ⌊acc / step⌋, (upd step)^[⌊acc / step⌋.toNat] w) := by
  obtain ⟨hcast, hlo, hhi⟩ := floor_step_bounds step acc hstep hacc
  rw [drain_of_bounds upd step hstep _ fuel acc w hlo hhi hfuel, hcast]

theorem fpsPhase_fields (c : Clock) :
    (fpsPhase c).time = c.time ∧ (fpsPhase c).timebase = c.timebase ∧
      (fpsPhase c).accumulator = c.accumulator ∧ (fpsPhase c).physicsStep = c.physicsStep := by
  unfold fpsPhase
  split_ifs <;> simp

/-- The clock that `checkTime` leaves when it takes the branch `dt > physicsStep`
and the loop exits with accumulator `acc`. -/
theorem checkTime_of_drain {σ : Type} (upd : ℚ → σ → σ) (fuel : ℕ) (now : ℚ) (c : Clock)
    (w w' : σ)
    (acc : ℚ) (hdt : now - c.timebase > c.physicsStep)
    (hd : drain upd c.physicsStep fuel
      (c.accumulator + (if now - c.timebase > 1/4 then 1/4 else now - c.timebase)) w =
        some (acc, w')) :
    checkTime upd fuel now c w =
      some ({ fpsPhase { c with time := now } with timebase := now, accumulator := acc }, w') := by
  obtain ⟨ht, _, ha, hp⟩ := fpsPhase_fields { c with time := now }
  simp only [checkTime, hdt, if_true, ht, ha, hp, hd]

theorem checkTime_idle {σ : Type} (upd : ℚ → σ → σ) (fuel : ℕ) (now : ℚ) (c : Clock)
    (w : σ)
    (hdt : ¬ now - c.timebase > c.physicsStep) :
    checkTime upd fuel now c w = some ({ c with time := now }, w) := by
  simp only [checkTime, hdt, if_false]

theorem iterate_logUpdate (step : ℚ) (n : ℕ) :
    (logUpdate step)^[n] [] = List.replicate n step := by
  have h : ∀ (m : ℕ) (l : List ℚ), (logUpdate step)^[m] l = List.replicate m step ++ l := by
    intro m
    induction m with
    | zero => intro l; rfl
    | succ m ih =>
      intro l
      rw [Function.iterate_succ_apply', ih, List.replicate_succ]
      rfl
  simpa using h n []

/-- The result of `checkTime` on a frame that is processed, where `add` is the
frame delta limited to a quarter of a second. -/
theorem checkTime_running {σ : Type} (upd : ℚ → σ → σ) (c : Clock) (w : σ) (now : ℚ)
    (fuel : ℕ)
    (add : ℚ) (hadd : (if now - c.timebase > 1/4 then (1/4 : ℚ) else now - c.timebase) = add)
    (hstep : 0 < c.physicsStep) (hacc : 0 ≤ c.accumulator + add)
    (hdt : c.physicsStep < now - c.timebase)
    (hfuel : ⌊(c.accumulator + add) / c.physicsStep⌋.toNat < fuel) :
    checkTime upd fuel now c w =
      some ({ fpsPhase { c with time := now } with
                timebase := now,
                accumulator := (c.accumulator + add) -
                  c.physicsStep * ⌊(c.accumulator + add) / c.physicsStep⌋ },
            (upd c.physicsStep)^[⌊(c.accumulator + add) / c.physicsStep⌋.toNat] w) := by
  apply checkTime_of_drain upd fuel now c w _ _ hdt
  rw [hadd]
  exact drain_floor upd c.physicsStep _ hstep hacc fuel w hfuel

theorem clamp_eq_min (dt : ℚ) : (if dt > 1/4 then (1/4 : ℚ) else dt) = min dt (1/4) := by
  by_cases h : dt > 1/4
  · rw [if_pos h, min_eq_right h.le]
  · rw [if_neg h, min_eq_left (not_lt.mp h)]

theorem checkTime_eq_map {σ : Type} (upd : ℚ → σ → σ) (fuel : ℕ) (now : ℚ) (c : Clock)
    (w : σ)
    (hdt : c.physicsStep < now - c.timebase) :
    checkTime upd fuel now c w =
      (drain upd c.physicsStep fuel (c.accumulator + min (now - c.timebase) (1/4)) w).map
        (fun r => ({ fpsPhase { c with time := now } with
                      timebase := now, accumulator := r.1 }, r.2)) := by
  rw [← clamp_eq_min]
  cases hd : drain upd c.physicsStep fuel
      (c.accumulator + (if now - c.timebase > 1/4 then 1/4 else now - c.timebase)) w with
  | some r =>
    obtain ⟨acc, w'⟩ := r
    rw [checkTime_of_drain upd fuel now c w w' acc hdt hd]
    rfl
  | none =>
    obtain ⟨ht, _, ha, hp⟩ := fpsPhase_fields { c with time := now }
    simp only [checkTime, gt_iff_lt, hdt, if_true, ht, ha, hp]
    simp only [gt_iff_lt] at hd
    rw [hd]
    rfl

theorem fabsf_eq_abs (x : ℚ) : fabsf x = |x| := by
  unfold fabsf
  split_ifs with h
  · rw [abs_of_neg h]
  · rw [abs_of_nonneg (not_lt.mp h)]

theorem boundaryPhase_obj2 {Ω : Type} (w : World Ω) :
    (boundaryPhase w).obj2 =
      { w.obj2 with
        velocity :=
          ⟨if fabsf w.obj2.position.x > 9/10 then -w.obj2.velocity.x else w.obj2.velocity.x,
           if fabsf w.obj2.position.y > 8/10 then -w.obj2.velocity.y else w.obj2.velocity.y,
           if fabsf w.obj2.position.z > 1 then -w.obj2.velocity.z else w.obj2.velocity.z⟩ } := by
  unfold boundaryPhase
  simp only
  split_ifs <;> simp [GameObject.SetVelocity]

theorem steps_succ_right {Ω : Type} (G : Geometry Ω) (dt : ℚ) (n : ℕ) :
    ∀ w : World Ω, steps G dt (n + 1) w = update G dt (steps G dt n w) := by
  induction n with
  | zero => intro w; rfl
  | succ n ih =>
    intro w
    rw [steps_add_one, ih (update G dt w)]
    rfl

theorem ceil_half (k : ℕ) : ⌈(k : ℚ) / 2⌉₊ = (k + 1) / 2 := by
  rcases Nat.eq_zero_or_pos k with h0 | hpos
  · subst h0; simp
  · have hne : (k + 1) / 2 ≠ 0 := by omega
    rw [Nat.ceil_eq_iff hne]
    obtain ⟨m, hm | hm⟩ := Nat.even_or_odd' k
    · subst hm
      have h1 : (2 * m + 1) / 2 = m := by omega
      obtain ⟨j, rfl⟩ : ∃ j, m = j + 1 := ⟨m - 1, by omega⟩
      rw [h1]
      constructor
      · simp only [Nat.add_sub_cancel]; push_cast; linarith
      · push_cast; linarith
    · subst hm
      have h1 : (2 * m + 1 + 1) / 2 = m + 1 := by omega
      rw [h1]
      constructor
      · simp only [Nat.add_sub_cancel]; push_cast; linarith
      · push_cast; linarith

theorem iterate_logUpdate_append (step : ℚ) (n : ℕ) (l : List ℚ) :
    (logUpdate step)^[n] l = List.replicate n step ++ l := by
  induction n with
  | zero => rfl
  | succ m ih =>
    rw [Function.iterate_succ_apply', ih, List.replicate_succ]
    rfl

theorem frames_append {σ : Type} (upd : ℚ → σ → σ) (fuel : ℕ) (now : ℚ)
    (pre : List ℚ) :
    ∀ (c : Clock) (w : σ),
      frames upd fuel (pre ++ [now]) c w =
        (frames upd fuel pre c w).bind (fun r => checkTime upd fuel now r.1 r.2) := by
  induction pre with
  | nil =>
    intro c w
    simp only [List.nil_append, frames, Option.some_bind]
    cases checkTime upd fuel now c w with
    | none => rfl
    | some r => rfl
  | cons t rest ih =>
    intro c w
    simp only [List.cons_append, frames]
    cases checkTime upd fuel t c w with
    | none => rfl
    | some r => exact ih r.1 r.2

/-- One call of `checkTime` that observes at most a quarter second keeps the
scheduler invariant: the steps run so far plus the accumulator account for the
time from `t0` to the timebase, and the accumulator stays in `[0, physicsStep)`.
A processed call moves the timebase to `now`; a skipped call changes neither
timebase, accumulator nor log. -/
theorem checkTime_keeps_invariant (fuel : ℕ) (now t0 : ℚ) (c : Clock) (log : List ℚ)
    (hstep : 0 < c.physicsStep)
    (hfuel : ⌊(1/4 : ℚ) / c.physicsStep⌋.toNat + 1 < fuel)
    (hinv : c.physicsStep * log.length + c.accumulator = c.timebase - t0)
    (h0 : 0 ≤ c.accumulator) (h1 : c.accumulator < c.physicsStep)
    (hall : ∀ d ∈ log, d = c.physicsStep)
    (hmax : now - c.timebase ≤ 1/4) :
    ∃ c' log', checkTime logUpdate fuel now c log = some (c', log') ∧
      c'.physicsStep = c.physicsStep ∧
      c.physicsStep * log'.length + c'.accumulator = c'.timebase - t0 ∧
      0 ≤ c'.accumulator ∧ c'.accumulator < c.physicsStep ∧
      (∀ d ∈ log', d = c.physicsStep) ∧
      (c.physicsStep < now - c.timebase →
        c'.timebase = now ∧
        log' = List.replicate
          ⌊(c.accumulator + (now - c.timebase)) / c.physicsStep⌋.toNat c.physicsStep ++ log ∧
        c'.accumulator = (c.accumulator + (now - c.timebase)) -
          c.physicsStep * ⌊(c.accumulator + (now - c.timebase)) / c.physicsStep⌋) ∧
      (now - c.timebase ≤ c.physicsStep →
        c'.timebase = c.timebase ∧ c'.accumulator = c.accumulator ∧ log' = log) := by
  by_cases hrun : c.physicsStep < now - c.timebase
  · have hsel : (if now - c.timebase > 1/4 then (1/4 : ℚ) else now - c.timebase) =
        now - c.timebase := if_neg (not_lt.mpr hmax)
    have hdtpos : 0 < now - c.timebase := by linarith
    have hacc : 0 ≤ c.accumulator + (now - c.timebase) := by linarith
    obtain ⟨hcast, hlo, hhi⟩ :=
      floor_step_bounds c.physicsStep (c.accumulator + (now - c.timebase)) hstep hacc
    have hle : ⌊(c.accumulator + (now - c.timebase)) / c.physicsStep⌋ ≤
        ⌊(1/4 : ℚ) / c.physicsStep⌋ + 1 := by
      rw [← Int.floor_add_one]
      apply Int.floor_le_floor
      rw [div_add_one (ne_of_gt hstep)]
      apply div_le_div_of_nonneg_right _ hstep.le
      linarith
    have hq : 0 ≤ ⌊(1/4 : ℚ) / c.physicsStep⌋ := Int.floor_nonneg.mpr (by positivity)
    have hfuel' : ⌊(c.accumulator + (now - c.timebase)) / c.physicsStep⌋.toNat < fuel := by
      have hn : 0 ≤ ⌊(c.accumulator + (now - c.timebase)) / c.physicsStep⌋ :=
        Int.floor_nonneg.mpr (div_nonneg hacc hstep.le)
      omega
    have h := checkTime_running logUpdate c log now fuel _ hsel hstep hacc hrun hfuel'
    rw [iterate_logUpdate_append] at h
    refine ⟨_, _, h, ?_, ?_, ?_, ?_, ?_, fun _ => ⟨rfl, rfl, rfl⟩,
      fun hidle => absurd hrun (not_lt.mpr hidle)⟩
    · exact (fpsPhase_fields { c with time := now }).2.2.2
    · show c.physicsStep * ((List.replicate _ c.physicsStep ++ log).length : ℚ) +
          ((c.accumulator + (now - c.timebase)) -
            c.physicsStep * ⌊(c.accumulator + (now - c.timebase)) / c.physicsStep⌋) = now - t0
      rw [List.length_append, List.length_replicate]
      push_cast
      rw [hcast]
      linarith
    · show 0 ≤ (c.accumulator + (now - c.timebase)) -
          c.physicsStep * ⌊(c.accumulator + (now - c.timebase)) / c.physicsStep⌋
      rw [← hcast]; linarith
    · show (c.accumulator + (now - c.timebase)) -
          c.physicsStep * ⌊(c.accumulator + (now - c.timebase)) / c.physicsStep⌋ <
            c.physicsStep
      rw [← hcast]; linarith
    · intro d hd
      rcases List.mem_append.mp hd with hd | hd
      · exact (List.mem_replicate.mp hd).2
      · exact hall d hd
  · exact ⟨_, _, checkTime_idle logUpdate fuel now c log hrun, rfl, hinv, h0, h1, hall,
      fun h => absurd h hrun, fun _ => ⟨rfl, rfl, rfl⟩⟩

/-! ## The intersection test -/

/-- C1 (counterexample): the unit cubes `[0,1]^3` and `[1,2]^3` touch on every
axis (`a.max = b.min`), so `a.max <= b.min` is true there, and yet `TestAABB`
returns true. -/
theorem C1_touching_boxes_intersect :
    TestAABB (cubeBox 0 1) (cubeBox 1 2) = true ∧
      ¬ StrictOverlap (cubeBox 0 1) (cubeBox 1 2) := by
  refine ⟨?_, ?_⟩
  · rw [TestAABB_eq_true_iff]
    norm_num [cubeBox]
  · simp [StrictOverlap, cubeBox]

/-- C1 (amended): `TestAABB a b` is true exactly when on each of the three
axes `a.max < b.min` is false and `a.min > b.max` is false; boxes that merely
touch are reported as intersecting. -/
theorem C1_TestAABB_iff_closed_overlap (a b : AABB) :
    (TestAABB a b = true ↔ ClosedOverlap a b) ∧
      (∀ lo mid hi : ℚ, lo ≤ mid → mid ≤ hi →
        TestAABB (cubeBox lo mid) (cubeBox mid hi) = true) := by
  constructor
  · rw [TestAABB_eq_true_iff]
    unfold ClosedOverlap
    simp only [not_lt, ge_iff_le, gt_iff_lt]
  · intro lo mid hi h1 h2
    rw [TestAABB_eq_true_iff]
    simp [cubeBox, h1, h2, le_trans h1 h2]

/-- C1 (witness of the amended statement): the touching cubes `[0,1]^3` and
`[1,2]^3`. -/
theorem C1_TestAABB_iff_closed_overlap_witness :
    TestAABB (cubeBox 0 1) (cubeBox 1 2) = true :=
  (C1_TestAABB_iff_closed_overlap (cubeBox 0 1) (cubeBox 1 2)).2 0 1 2
    (by norm_num) (by norm_num)

/-- C2: `TestAABB` is symmetric in its two arguments, with no assumption on
how `min` and `max` are ordered. -/
theorem C2_TestAABB_symm (a b : AABB) : TestAABB a b = TestAABB b a := by
  have h : TestAABB a b = true ↔ TestAABB b a = true := by
    rw [TestAABB_eq_true_iff, TestAABB_eq_true_iff]
    constructor <;> rintro ⟨⟨h1, h2⟩, ⟨h3, h4⟩, ⟨h5, h6⟩⟩ <;>
      exact ⟨⟨h2, h1⟩, ⟨h4, h3⟩, ⟨h6, h5⟩⟩
  cases hab : TestAABB a b <;> cases hba : TestAABB b a <;> simp_all

/-- C3: a box with `min <= max` on every axis intersects itself; this covers
boxes with non-empty extents and the degenerate single point `min = max`. -/
theorem C3_TestAABB_self (a : AABB) (h : a.Valid) : TestAABB a a = true := by
  rw [TestAABB_eq_true_iff]
  obtain ⟨hx, hy, hz⟩ := h
  exact ⟨⟨hx, hx⟩, ⟨hy, hy⟩, ⟨hz, hz⟩⟩

/-- C3 (witness): the unit cube `[-1/2,1/2]^3` and the single point
`(3, 3, 3)` both intersect themselves. -/
theorem C3_TestAABB_self_witness :
    ((cubeBox (-1/2) (1/2)).Valid ∧
        TestAABB (cubeBox (-1/2) (1/2)) (cubeBox (-1/2) (1/2)) = true) ∧
      ((cubeBox 3 3).Valid ∧ (cubeBox 3 3).min = (cubeBox 3 3).max ∧
        TestAABB (cubeBox 3 3) (cubeBox 3 3) = true) :=
  ⟨⟨by norm_num [AABB.Valid, cubeBox],
      C3_TestAABB_self (cubeBox (-1/2) (1/2)) (by norm_num [AABB.Valid, cubeBox])⟩,
    ⟨by norm_num [AABB.Valid, cubeBox], rfl,
      C3_TestAABB_self (cubeBox 3 3) (by norm_num [AABB.Valid, cubeBox])⟩⟩

/-- C4: a gap along X (`a.max.x < b.min.x`) makes `TestAABB a b` false
whatever the Y and Z extents are; intervals that strictly overlap on all three
axes make it true. -/
theorem C4_gap_and_overlap (a b : AABB) :
    (a.max.x < b.min.x → TestAABB a b = false) ∧
      (StrictOverlap a b → TestAABB a b = true) := by
  constructor
  · intro h
    rw [TestAABB_eq_false_iff]
    rintro ⟨⟨hx, _⟩, _⟩
    exact absurd h (not_lt.mpr hx)
  · rintro ⟨⟨hx1, hx2⟩, ⟨hy1, hy2⟩, ⟨hz1, hz2⟩⟩
    rw [TestAABB_eq_true_iff]
    push_neg at hx1 hx2 hy1 hy2 hz1 hz2
    exact ⟨⟨hx1.le, hx2.le⟩, ⟨hy1.le, hy2.le⟩, ⟨hz1.le, hz2.le⟩⟩

/-- C4 (witness): `[-0.5,0.5]^3` against `[1.5,2.5]^3` gives false, and
against `[0.3,1.3]^3` gives true. -/
theorem C4_gap_and_overlap_witness :
    TestAABB (cubeBox (-1/2) (1/2)) (cubeBox (3/2) (5/2)) = false ∧
      TestAABB (cubeBox (-1/2) (1/2)) (cubeBox (3/10) (13/10)) = true :=
  ⟨(C4_gap_and_overlap (cubeBox (-1/2) (1/2)) (cubeBox (3/2) (5/2))).1
      (by norm_num [cubeBox]),
    (C4_gap_and_overlap (cubeBox (-1/2) (1/2)) (cubeBox (3/10) (13/10))).2
      (by norm_num [StrictOverlap, cubeBox])⟩

/-! ## The collision response and the latch -/

/-- C6: in one call of `update`, if the recomputed boxes intersect and
`antiStuck` is false on entry to the collision phase, the collision phase
replaces the moving body's velocity `(vx, vy, vz)` by `(-vx, vy, vz)`, leaves
the stationary body's velocity unchanged and sets `antiStuck`; the values
survive to the end of the call. -/
theorem C6_collision_reflects {Ω : Type} (G : Geometry Ω) (dt : ℚ) (w : World Ω)
    (hhit : TestAABB (preCollision G w).obj1.box (preCollision G w).obj2.box = true)
    (hlatch : (preCollision G w).antiStuck = false) :
    ((collisionPhase (preCollision G w)).obj2.velocity =
        ⟨-(preCollision G w).obj2.velocity.x, (preCollision G w).obj2.velocity.y,
          (preCollision G w).obj2.velocity.z⟩ ∧
      (collisionPhase (preCollision G w)).obj1.velocity = (preCollision G w).obj1.velocity ∧
      (collisionPhase (preCollision G w)).antiStuck = true) ∧
    ((update G dt w).obj2.velocity =
        ⟨-(preCollision G w).obj2.velocity.x, (preCollision G w).obj2.velocity.y,
          (preCollision G w).obj2.velocity.z⟩ ∧
      (update G dt w).obj1.velocity = w.obj1.velocity ∧
      (update G dt w).antiStuck = true) := by
  have hf : collisionFires (preCollision G w) = true := by
    simp [collisionFires, hhit, hlatch]
  have hr : reflectsAt G w = true := hf
  refine ⟨⟨?_, ?_, ?_⟩, ?_, ?_, ?_⟩
  · rw [collisionPhase_obj2_velocity, hf]; rfl
  · rw [collisionPhase_obj1]
  · rw [collisionPhase_antiStuck, hf]
  · rw [update_obj2_velocity, collisionPhase_obj2_velocity, hf]; rfl
  · exact update_obj1_velocity G dt w
  · rw [update_antiStuck, hr]

/-- C6 (witness): the moving cube at x = 0.2 inside the stationary cube's box,
latch clear: its velocity (-0.9, 0, 0) becomes (0.9, 0, 0) and the latch is
set. -/
theorem C6_collision_reflects_witness :
    (update fixedCube (3/250) (overlapWorld false)).obj2.velocity = ⟨9/10, 0, 0⟩ ∧
      (update fixedCube (3/250) (overlapWorld false)).obj1.velocity = ⟨0, 0, 0⟩ ∧
      (update fixedCube (3/250) (overlapWorld false)).antiStuck = true := by
  have h := (C6_collision_reflects fixedCube (3/250) (overlapWorld false)
    (by
      simp [preCollision, aabbPhase, rotatePhase, boundaryPhase, overlapWorld, fixedCube,
        GameObject.CalculateAABB, GameObject.Rotate, GameObject.SetVelocity, fabsf, smallCube,
        stillCube, TestAABB]
      norm_num)
    (by rw [preCollision_antiStuck]; rfl)).2
  have hv : (preCollision fixedCube (overlapWorld false)).obj2.velocity = ⟨-9/10, 0, 0⟩ := by
    simp [preCollision, aabbPhase, rotatePhase, boundaryPhase, overlapWorld, fixedCube,
        GameObject.CalculateAABB, GameObject.Rotate, GameObject.SetVelocity, fabsf, smallCube,
        stillCube]
    norm_num
  rw [hv] at h
  refine ⟨?_, h.2.1, h.2.2⟩
  rw [h.1]
  norm_num

/-- C7: in one call of `update`, if the boxes intersect and `antiStuck` is
already true on entry to the collision phase, the collision phase leaves the
velocity of both bodies as it found them, also at the end of the call. -/
theorem C7_latched_no_response {Ω : Type} (G : Geometry Ω) (dt : ℚ) (w : World Ω)
    (hhit : TestAABB (preCollision G w).obj1.box (preCollision G w).obj2.box = true)
    (hlatch : (preCollision G w).antiStuck = true) :
    (collisionPhase (preCollision G w)).obj1.velocity = (preCollision G w).obj1.velocity ∧
      (collisionPhase (preCollision G w)).obj2.velocity = (preCollision G w).obj2.velocity ∧
      (update G dt w).obj1.velocity = (preCollision G w).obj1.velocity ∧
      (update G dt w).obj2.velocity = (preCollision G w).obj2.velocity := by
  have hf : collisionFires (preCollision G w) = false := by
    simp [collisionFires, hhit, hlatch]
  refine ⟨?_, ?_, ?_, ?_⟩
  · rw [collisionPhase_obj1]
  · rw [collisionPhase_obj2_velocity, hf]; rfl
  · rw [update_obj1_velocity, preCollision_obj1_velocity]
  · rw [update_obj2_velocity, collisionPhase_obj2_velocity, hf]; rfl

/-- C7 (witness): the moving cube at x = 0.2 inside the stationary cube's box
with the latch already set keeps its velocity (-0.9, 0, 0). -/
theorem C7_latched_no_response_witness :
    (update fixedCube (3/250) (overlapWorld true)).obj1.velocity = ⟨0, 0, 0⟩ ∧
      (update fixedCube (3/250) (overlapWorld true)).obj2.velocity = ⟨-9/10, 0, 0⟩ := by
  have h := C7_latched_no_response fixedCube (3/250) (overlapWorld true)
    (by
      simp [preCollision, aabbPhase, rotatePhase, boundaryPhase, overlapWorld, fixedCube,
        GameObject.CalculateAABB, GameObject.Rotate, GameObject.SetVelocity, fabsf, smallCube,
        stillCube, TestAABB]
      norm_num)
    (by rw [preCollision_antiStuck]; rfl)
  have hv : (preCollision fixedCube (overlapWorld true)).obj2.velocity = ⟨-9/10, 0, 0⟩ := by
    simp [preCollision, aabbPhase, rotatePhase, boundaryPhase, overlapWorld, fixedCube,
        GameObject.CalculateAABB, GameObject.Rotate, GameObject.SetVelocity, fabsf, smallCube,
        stillCube]
    norm_num
  have hv1 : (preCollision fixedCube (overlapWorld true)).obj1.velocity = ⟨0, 0, 0⟩ := by
    rw [preCollision_obj1_velocity]; rfl
  rw [hv, hv1] at h
  exact ⟨h.2.2.1, h.2.2.2⟩

/-- C8: `antiStuck` is true after a call of `update` only if in that call the
intersection test was true and the reflection of velocity.x was applied; and
whenever the test is false in a call, `antiStuck` is false after it and the
collision phase changes no velocity. -/
theorem C8_latch_invariant {Ω : Type} (G : Geometry Ω) (dt : ℚ) (w : World Ω) :
    ((update G dt w).antiStuck = true →
        overlapAt G w = true ∧ reflectsAt G w = true ∧
        (collisionPhase (preCollision G w)).obj2.velocity =
          (preCollision G w).obj2.velocity.negX) ∧
    (overlapAt G w = false →
        (update G dt w).antiStuck = false ∧
        (collisionPhase (preCollision G w)).obj1.velocity = (preCollision G w).obj1.velocity ∧
        (collisionPhase (preCollision G w)).obj2.velocity = (preCollision G w).obj2.velocity) := by
  constructor
  · intro h
    rw [update_antiStuck] at h
    have h' := h
    rw [reflectsAt_eq, Bool.and_eq_true] at h'
    refine ⟨h'.1, h, ?_⟩
    rw [collisionPhase_obj2_velocity]
    have hf : collisionFires (preCollision G w) = true := h
    rw [hf]; rfl
  · intro h
    have hr : reflectsAt G w = false := by rw [reflectsAt_eq, h]; rfl
    have hf : collisionFires (preCollision G w) = false := hr
    refine ⟨?_, ?_, ?_⟩
    · rw [update_antiStuck, hr]
    · rw [collisionPhase_obj1]
    · rw [collisionPhase_obj2_velocity, hf]; rfl

/-- C8 (witness): from the overlapping world with the latch clear the latch
ends set, with the test true and the reflection applied; from the world of
`setupCube`, where the boxes are apart, the latch ends clear and the moving
body keeps its velocity. -/
theorem C8_latch_invariant_witness :
    (overlapAt fixedCube (overlapWorld false) = true ∧
        reflectsAt fixedCube (overlapWorld false) = true ∧
        (collisionPhase (preCollision fixedCube (overlapWorld false))).obj2.velocity =
          (preCollision fixedCube (overlapWorld false)).obj2.velocity.negX) ∧
      ((update fixedCube (3/250) startWorld).antiStuck = false ∧
        (collisionPhase (preCollision fixedCube startWorld)).obj1.velocity =
          (preCollision fixedCube startWorld).obj1.velocity ∧
        (collisionPhase (preCollision fixedCube startWorld)).obj2.velocity =
          (preCollision fixedCube startWorld).obj2.velocity) :=
  ⟨(C8_latch_invariant fixedCube (3/250) (overlapWorld false)).1 (by
      rw [update_antiStuck, reflectsAt_eq]
      simp [overlapAt, preCollision, aabbPhase, rotatePhase, boundaryPhase, overlapWorld,
        fixedCube, GameObject.CalculateAABB, GameObject.Rotate, GameObject.SetVelocity, fabsf,
        smallCube, stillCube, TestAABB]
      norm_num),
    (C8_latch_invariant fixedCube (3/250) startWorld).2 (by
      simp [overlapAt, preCollision, aabbPhase, rotatePhase, boundaryPhase, startWorld,
        fixedCube, GameObject.CalculateAABB, GameObject.Rotate, GameObject.SetVelocity, fabsf,
        smallCube, stillCube, TestAABB]
      norm_num)⟩

/-! ## The fixed-timestep scheduler -/

/-- C9: with `physicsStep > 0`, an accumulator `a` in `[0, physicsStep)` and a
frame delta `dt = now - timebase` with `physicsStep < dt <= 0.25`, one call
of `checkTime` returns (given fuel above the number of steps), having
applied `update physicsStep` exactly `floor((a + dt) / physicsStep)` times
(the log of calls is that many copies of `physicsStep`), and leaves
`accumulator = (a + dt) - physicsStep * floor((a + dt) / physicsStep)`, which
lies in `[0, physicsStep)`.  The bound `a < physicsStep` is not needed. -/
theorem C9_checkTime_fixed_steps {σ : Type} (upd : ℚ → σ → σ) (c : Clock) (w : σ) (now : ℚ)
    (fuel : ℕ)
    (hstep : 0 < c.physicsStep) (ha0 : 0 ≤ c.accumulator)
    (hdt : c.physicsStep < now - c.timebase) (hmax : now - c.timebase ≤ 1/4)
    (hfuel : ⌊(c.accumulator + (now - c.timebase)) / c.physicsStep⌋.toNat < fuel) :
    ∃ c' : Clock,
      checkTime upd fuel now c w =
        some (c', (upd c.physicsStep)^[
          ⌊(c.accumulator + (now - c.timebase)) / c.physicsStep⌋.toNat] w) ∧
      checkTime logUpdate fuel now c [] =
        some (c', List.replicate
          ⌊(c.accumulator + (now - c.timebase)) / c.physicsStep⌋.toNat c.physicsStep) ∧
      c'.accumulator = (c.accumulator + (now - c.timebase)) -
        c.physicsStep * ⌊(c.accumulator + (now - c.timebase)) / c.physicsStep⌋ ∧
      0 ≤ c'.accumulator ∧ c'.accumulator < c.physicsStep := by
  have hsel : (if now - c.timebase > 1/4 then (1/4 : ℚ) else now - c.timebase) =
      now - c.timebase := if_neg (not_lt.mpr hmax)
  have hacc : 0 ≤ c.accumulator + (now - c.timebase) := by linarith
  obtain ⟨hcast, hlo, hhi⟩ :=
    floor_step_bounds c.physicsStep (c.accumulator + (now - c.timebase)) hstep hacc
  refine ⟨_, checkTime_running upd c w now fuel _ hsel hstep hacc hdt hfuel, ?_, rfl, ?_, ?_⟩
  · rw [← iterate_logUpdate]
    exact checkTime_running logUpdate c [] now fuel _ hsel hstep hacc hdt hfuel
  · show 0 ≤ (c.accumulator + (now - c.timebase)) -
        c.physicsStep * ⌊(c.accumulator + (now - c.timebase)) / c.physicsStep⌋
    rw [← hcast]; linarith
  · show (c.accumulator + (now - c.timebase)) -
        c.physicsStep * ⌊(c.accumulator + (now - c.timebase)) / c.physicsStep⌋ < c.physicsStep
    rw [← hcast]; linarith

/-- C9 (witness): `physicsStep = 0.012`, accumulator 0 and `dt = 0.05` give
exactly 4 steps of 0.012 and leave the accumulator at 0.002. -/
theorem C9_checkTime_fixed_steps_witness :
    ∃ c' : Clock,
      checkTime logUpdate 5 (1/20) (startClock (3/250)) [] =
        some (c', [3/250, 3/250, 3/250, 3/250]) ∧
      c'.accumulator = 1/500 := by
  have hfl : ⌊((0 : ℚ) + (1/20 - 0)) / (3/250)⌋ = 4 := by
    rw [Int.floor_eq_iff]; norm_num
  obtain ⟨c', _, hlog, hacc, _, _⟩ :=
    C9_checkTime_fixed_steps logUpdate (startClock (3/250)) [] (1/20) 5
      (by norm_num [startClock]) (by norm_num [startClock])
      (by norm_num [startClock]) (by norm_num [startClock])
      (by simp only [startClock]; rw [hfl]; decide)
  simp only [startClock] at hlog hacc
  rw [hfl] at hlog hacc
  refine ⟨c', ?_, ?_⟩
  · simpa [startClock, List.replicate] using hlog
  · rw [hacc]; norm_num

/-- C10: with `physicsStep > 0`, accumulator 0 and a frame delta
`dt = now - timebase > 0.25`, one call of `checkTime` returns having applied
`update physicsStep` exactly `floor(0.25 / physicsStep)` times, whatever `dt`
is; when the frame is processed (`dt > physicsStep`) the accumulator is left
at `0.25 - physicsStep * floor(0.25 / physicsStep)`, so 0.25 and not `dt` was
added to it.  With `physicsStep = 0.012` a frame with `dt = 0.25` runs 20
steps. -/
theorem C10_checkTime_clamps {σ : Type} (upd : ℚ → σ → σ) (c : Clock) (w : σ) (now : ℚ)
    (fuel : ℕ)
    (hstep : 0 < c.physicsStep) (ha : c.accumulator = 0)
    (hdt : now - c.timebase > 1/4)
    (hfuel : ⌊(1/4 : ℚ) / c.physicsStep⌋.toNat < fuel) :
    (∃ c' : Clock,
      checkTime upd fuel now c w =
        some (c', (upd c.physicsStep)^[⌊(1/4 : ℚ) / c.physicsStep⌋.toNat] w) ∧
      checkTime logUpdate fuel now c [] =
        some (c', List.replicate ⌊(1/4 : ℚ) / c.physicsStep⌋.toNat c.physicsStep) ∧
      (c.physicsStep < now - c.timebase →
        c'.accumulator = 1/4 - c.physicsStep * ⌊(1/4 : ℚ) / c.physicsStep⌋)) ∧
    (∃ c2 : Clock,
      checkTime logUpdate 21 (1/4) (startClock (3/250)) [] =
        some (c2, List.replicate 20 (3/250))) := by
  constructor
  · by_cases hrun : now - c.timebase > c.physicsStep
    · have hsel : (if now - c.timebase > 1/4 then (1/4 : ℚ) else now - c.timebase) = 1/4 :=
        if_pos hdt
      have hacc : (0 : ℚ) ≤ c.accumulator + 1/4 := by rw [ha]; norm_num
      have hfuel' : ⌊(c.accumulator + 1/4) / c.physicsStep⌋.toNat < fuel := by
        rw [ha, zero_add]; exact hfuel
      have h1 := checkTime_running upd c w now fuel _ hsel hstep hacc hrun hfuel'
      have h2 := checkTime_running logUpdate c [] now fuel _ hsel hstep hacc hrun hfuel'
      rw [iterate_logUpdate] at h2
      rw [ha, zero_add] at h1 h2
      exact ⟨_, h1, h2, fun _ => rfl⟩
    · have hbig : (1/4 : ℚ) < c.physicsStep := lt_of_lt_of_le hdt (not_lt.mp hrun)
      have hfl : ⌊(1/4 : ℚ) / c.physicsStep⌋ = 0 := by
        rw [Int.floor_eq_iff]
        refine ⟨by positivity, ?_⟩
        rw [div_lt_iff₀ hstep]
        simpa using hbig
      refine ⟨{ c with time := now }, ?_, ?_, fun h => absurd h hrun⟩
      · rw [checkTime_idle upd fuel now c w hrun, hfl]; rfl
      · rw [checkTime_idle logUpdate fuel now c [] hrun, hfl]; rfl
  · have hfl : ⌊((0 : ℚ) + 1/4) / (3/250)⌋ = 20 := by
      rw [Int.floor_eq_iff]; norm_num
    have h := checkTime_running logUpdate (startClock (3/250)) [] (1/4) 21 (1/4)
      (by norm_num [startClock]) (by norm_num [startClock]) (by norm_num [startClock])
      (by norm_num [startClock]) (by simp only [startClock]; rw [hfl]; decide)
    rw [iterate_logUpdate] at h
    simp only [startClock] at h
    rw [hfl] at h
    exact ⟨_, h⟩

/-- C10 (witness): `physicsStep = 0.012`, accumulator 0 and `dt = 10` give
exactly 20 steps of 0.012 and leave the accumulator at 0.25 - 0.24 = 0.01. -/
theorem C10_checkTime_clamps_witness :
    ∃ c' : Clock,
      checkTime logUpdate 21 10 (startClock (3/250)) [] =
        some (c', List.replicate 20 (3/250)) ∧
      c'.accumulator = 1/100 := by
  have hfl : ⌊(1/4 : ℚ) / (3/250)⌋ = 20 := by
    rw [Int.floor_eq_iff]; norm_num
  obtain ⟨⟨c', _, hlog, hacc⟩, _⟩ :=
    C10_checkTime_clamps logUpdate (startClock (3/250)) [] 10 21
      (by norm_num [startClock]) rfl (by norm_num [startClock])
      (by simp only [startClock]; rw [hfl]; decide)
  have hacc' := hacc (by norm_num [startClock])
  simp only [startClock] at hlog hacc'
  rw [hfl] at hlog hacc'
  refine ⟨c', by simpa [startClock] using hlog, ?_⟩
  rw [hacc']; norm_num

/-! ## Frames that are skipped, boundary containment and the toggling latch -/

/-- C11 (counterexample): with `physicsStep = 0.012`, timebase 0 and
accumulator 0, the call at `now = 0.01` has `dt = 0.01 >= 0` and leaves the
timebase at 0, not at `now`, and the accumulator at 0, not at
`0 + min(0.01, 0.25)`; only `time` is written. -/
theorem C11_short_frame_changes_nothing :
    (0 : ℚ) ≤ 1/100 - (startClock (3/250)).timebase ∧
      checkTime logUpdate 5 (1/100) (startClock (3/250)) [] =
        some ({ startClock (3/250) with time := 1/100 }, []) ∧
      ({ startClock (3/250) with time := 1/100 } : Clock).timebase ≠ 1/100 ∧
      ({ startClock (3/250) with time := 1/100 } : Clock).accumulator ≠
        (startClock (3/250)).accumulator + min (1/100 - (startClock (3/250)).timebase) (1/4) := by
  refine ⟨by norm_num [startClock], ?_, by norm_num [startClock], ?_⟩
  · exact checkTime_idle logUpdate 5 (1/100) (startClock (3/250)) [] (by norm_num [startClock])
  · norm_num [startClock]

/-- C11 (amended): on every call of `checkTime` whose frame delta
`dt = now - timebase` exceeds `physicsStep`, the timebase is set to `now` and
the drain loop starts from `accumulator + min(dt, 0.25)`; on a call with
`dt <= physicsStep` neither the timebase nor the accumulator changes and no
step runs. -/
theorem C11_checkTime_guarded {σ : Type} (upd : ℚ → σ → σ) (fuel : ℕ) (now : ℚ) (c : Clock)
    (w : σ) :
    (c.physicsStep < now - c.timebase →
      checkTime upd fuel now c w =
        (drain upd c.physicsStep fuel (c.accumulator + min (now - c.timebase) (1/4)) w).map
          (fun r => ({ fpsPhase { c with time := now } with
                        timebase := now, accumulator := r.1 }, r.2)) ∧
      ∀ c' w', checkTime upd fuel now c w = some (c', w') → c'.timebase = now) ∧
    (now - c.timebase ≤ c.physicsStep →
      ∃ c', checkTime upd fuel now c w = some (c', w) ∧
        c'.timebase = c.timebase ∧ c'.accumulator = c.accumulator) := by
  constructor
  · intro hdt
    have h := checkTime_eq_map upd fuel now c w hdt
    refine ⟨h, ?_⟩
    intro c' w' hc
    rw [h] at hc
    cases hd : drain upd c.physicsStep fuel
        (c.accumulator + min (now - c.timebase) (1/4)) w with
    | none => rw [hd] at hc; simp at hc
    | some r =>
      rw [hd] at hc
      simp only [Option.map_some', Option.some.injEq, Prod.mk.injEq] at hc
      rw [← hc.1]
  · intro hdt
    exact ⟨_, checkTime_idle upd fuel now c w (not_lt.mpr hdt), rfl, rfl⟩

/-- C11 (witness of the amended statement): with `physicsStep = 0.012` the
call at `now = 0.05` sets the timebase to 0.05, and the call at `now = 0.01`
leaves timebase and accumulator at 0. -/
theorem C11_checkTime_guarded_witness :
    (∀ c' w', checkTime logUpdate 5 (1/20) (startClock (3/250)) [] = some (c', w') →
        c'.timebase = 1/20) ∧
      (∃ c', checkTime logUpdate 5 (1/100) (startClock (3/250)) [] = some (c', []) ∧
        c'.timebase = (startClock (3/250)).timebase ∧
        c'.accumulator = (startClock (3/250)).accumulator) :=
  ⟨((C11_checkTime_guarded logUpdate 5 (1/20) (startClock (3/250)) []).1
      (by norm_num [startClock])).2,
    (C11_checkTime_guarded logUpdate 5 (1/100) (startClock (3/250)) []).2
      (by norm_num [startClock])⟩

/-- C12: after the boundary-containment phase of `update` the moving body's
velocity has x component `-v.x` if `|p.x| > 0.9` and `v.x` otherwise, y
component `-v.y` if `|p.y| > 0.8` and `v.y` otherwise, z component `-v.z` if
`|p.z| > 1.0` and `v.z` otherwise, each axis decided from its own coordinate
alone; its position, the stationary body and the latch are unchanged.  In
particular all three flip when all three bounds are exceeded, and `p.x = 1.0`
flips `v.x` whatever `p.y` and `p.z` are. -/
theorem C12_boundary_containment {Ω : Type} (w : World Ω) :
    ((boundaryPhase w).obj2.velocity =
        ⟨if |w.obj2.position.x| > 9/10 then -w.obj2.velocity.x else w.obj2.velocity.x,
         if |w.obj2.position.y| > 8/10 then -w.obj2.velocity.y else w.obj2.velocity.y,
         if |w.obj2.position.z| > 1 then -w.obj2.velocity.z else w.obj2.velocity.z⟩ ∧
      (boundaryPhase w).obj2.position = w.obj2.position ∧
      (boundaryPhase w).obj1 = w.obj1 ∧
      (boundaryPhase w).antiStuck = w.antiStuck) ∧
    (|w.obj2.position.x| > 9/10 → |w.obj2.position.y| > 8/10 → |w.obj2.position.z| > 1 →
      (boundaryPhase w).obj2.velocity =
        ⟨-w.obj2.velocity.x, -w.obj2.velocity.y, -w.obj2.velocity.z⟩) ∧
    (w.obj2.position.x = 1 → (boundaryPhase w).obj2.velocity.x = -w.obj2.velocity.x) := by
  have hv : (boundaryPhase w).obj2.velocity =
      ⟨if |w.obj2.position.x| > 9/10 then -w.obj2.velocity.x else w.obj2.velocity.x,
       if |w.obj2.position.y| > 8/10 then -w.obj2.velocity.y else w.obj2.velocity.y,
       if |w.obj2.position.z| > 1 then -w.obj2.velocity.z else w.obj2.velocity.z⟩ := by
    rw [boundaryPhase_obj2]
    simp only [fabsf_eq_abs]
  refine ⟨⟨hv, ?_, boundaryPhase_obj1 w, boundaryPhase_antiStuck w⟩, ?_, ?_⟩
  · rw [boundaryPhase_obj2]
  · intro hx hy hz
    rw [hv, if_pos hx, if_pos hy, if_pos hz]
  · intro hx
    have hgt : |w.obj2.position.x| > 9/10 := by rw [hx]; norm_num
    rw [hv]
    simp only [if_pos hgt]

/-- C12 (witness): the moving cube at (1, 1, 2) with velocity
(0.5, 0.25, 0.125) is past all three bounds and leaves the phase with
velocity (-0.5, -0.25, -0.125); its x component flips because `p.x = 1`. -/
theorem C12_boundary_containment_witness :
    (boundaryPhase cornerWorld).obj2.velocity =
        ⟨-cornerWorld.obj2.velocity.x, -cornerWorld.obj2.velocity.y,
          -cornerWorld.obj2.velocity.z⟩ ∧
      (boundaryPhase cornerWorld).obj2.velocity.x = -cornerWorld.obj2.velocity.x :=
  ⟨(C12_boundary_containment cornerWorld).2.1
      (by norm_num [cornerWorld, smallCube]) (by norm_num [cornerWorld, smallCube])
      (by norm_num [cornerWorld, smallCube]),
    (C12_boundary_containment cornerWorld).2.2 rfl⟩

/-- C13: for every k, if `antiStuck` is false and the intersection test is
then true on k consecutive calls of `update`, the latch after the i-th of
those calls (i = 1..k) is true exactly when i is odd; the collision phase of
the i-th call replaces the moving body's velocity `v` by `(-v.x, v.y, v.z)`
when i is odd and leaves it as it is when i is even, and the velocity so left
is the one the call ends with; the reflecting branch is taken on ceil(k/2) of
the k calls in all, and an intersecting call that finds the latch set clears
it and changes no velocity. -/
theorem C13_latch_toggles {Ω : Type} (G : Geometry Ω) (dt : ℚ) (k : ℕ) (w : World Ω)
    (hlatch : w.antiStuck = false)
    (hrun : ∀ i, i < k → overlapAt G (steps G dt i w) = true) :
    (∀ i, 1 ≤ i → i ≤ k → ((steps G dt i w).antiStuck = true ↔ i % 2 = 1)) ∧
      (∀ i, 1 ≤ i → i ≤ k → (reflectsAt G (steps G dt (i - 1) w) = true ↔ i % 2 = 1)) ∧
      reflections G dt k w = ⌈(k : ℚ) / 2⌉₊ ∧
      (∀ v : World Ω, overlapAt G v = true → v.antiStuck = true →
        reflectsAt G v = false ∧ (update G dt v).antiStuck = false) ∧
      (∀ i, 1 ≤ i → i ≤ k →
        (collisionPhase (preCollision G (steps G dt (i - 1) w))).obj2.velocity =
          (if i % 2 = 1 then
            ⟨-(preCollision G (steps G dt (i - 1) w)).obj2.velocity.x,
              (preCollision G (steps G dt (i - 1) w)).obj2.velocity.y,
              (preCollision G (steps G dt (i - 1) w)).obj2.velocity.z⟩
           else (preCollision G (steps G dt (i - 1) w)).obj2.velocity) ∧
        (steps G dt i w).obj2.velocity =
          (collisionPhase (preCollision G (steps G dt (i - 1) w))).obj2.velocity) ∧
      (∀ v : World Ω, overlapAt G v = true → v.antiStuck = true →
        (collisionPhase (preCollision G v)).obj2.velocity = (preCollision G v).obj2.velocity ∧
        (collisionPhase (preCollision G v)).obj1.velocity =
          (preCollision G v).obj1.velocity) := by
  obtain ⟨hcount, hpar⟩ := (run_alternates G dt k w hrun).1 hlatch
  refine ⟨?_, ?_, ?_, ?_, ?_, ?_⟩
  · intro i h1 hk
    obtain ⟨j, rfl⟩ : ∃ j, i = j + 1 := ⟨i - 1, by omega⟩
    rw [steps_succ_right, update_antiStuck, hpar j (by omega)]
    omega
  · intro i h1 hk
    obtain ⟨j, rfl⟩ : ∃ j, i = j + 1 := ⟨i - 1, by omega⟩
    rw [Nat.add_sub_cancel, hpar j (by omega)]
    omega
  · rw [hcount, ceil_half]
  · intro v hv hl
    have hr : reflectsAt G v = false := by rw [reflectsAt_eq, hv, hl]; rfl
    exact ⟨hr, by rw [update_antiStuck, hr]⟩
  · intro i h1 hk
    obtain ⟨j, rfl⟩ : ∃ j, i = j + 1 := ⟨i - 1, by omega⟩
    rw [Nat.add_sub_cancel]
    refine ⟨?_, ?_⟩
    · rw [collisionPhase_obj2_velocity]
      by_cases hodd : (j + 1) % 2 = 1
      · have hf : collisionFires (preCollision G (steps G dt j w)) = true :=
          (hpar j (by omega)).mpr (by omega)
        rw [hf, if_pos hodd]; rfl
      · have hf : collisionFires (preCollision G (steps G dt j w)) = false := by
          rw [Bool.eq_false_iff]
          intro hh
          have := (hpar j (by omega)).mp hh
          omega
        rw [hf, if_neg hodd]; rfl
    · rw [steps_succ_right, update_obj2_velocity]
  · intro v hv hl
    have hf : collisionFires (preCollision G v) = false := by
      have hr : reflectsAt G v = false := by rw [reflectsAt_eq, hv, hl]; rfl
      exact hr
    refine ⟨?_, ?_⟩
    · rw [collisionPhase_obj2_velocity, hf]; rfl
    · rw [collisionPhase_obj1]

/-- C13 (witness): the three overlapping calls of the descent through the
stationary cube's box, entered with the latch clear and velocity.x = 0.01:
the latch is set after the first call, clear after the second, set after the
third; velocity.x is -0.01 after the first call, still -0.01 after the
second and 0.01 after the third; two of the three calls reflect. -/
theorem C13_latch_toggles_witness :
    (steps fixedCube (3/250) 1 (steps fixedCube (3/250) 1 divingWorld)).antiStuck = true ∧
      (steps fixedCube (3/250) 2 (steps fixedCube (3/250) 1 divingWorld)).antiStuck = false ∧
      (steps fixedCube (3/250) 3 (steps fixedCube (3/250) 1 divingWorld)).antiStuck = true ∧
      reflections fixedCube (3/250) 3 (steps fixedCube (3/250) 1 divingWorld) = 2 ∧
      (steps fixedCube (3/250) 1 divingWorld).obj2.velocity = ⟨1/100, -25/2, 0⟩ ∧
      (steps fixedCube (3/250) 1 (steps fixedCube (3/250) 1 divingWorld)).obj2.velocity =
        ⟨-1/100, -25/2, 0⟩ ∧
      (steps fixedCube (3/250) 2 (steps fixedCube (3/250) 1 divingWorld)).obj2.velocity =
        ⟨-1/100, -25/2, 0⟩ ∧
      (steps fixedCube (3/250) 3 (steps fixedCube (3/250) 1 divingWorld)).obj2.velocity =
        ⟨1/100, -25/2, 0⟩ := by
  have h := C13_latch_toggles fixedCube (3/250) 3
    (steps fixedCube (3/250) 1 divingWorld)
    (by simp [steps, dive_step1, diveWorld])
    (by
      obtain ⟨_, h1, h2, h3, _⟩ := dive_overlap
      intro i hi
      interval_cases i
      · simpa only [steps, dive_step1] using h1
      · simpa only [steps, dive_step1, dive_step2] using h2
      · simpa only [steps, dive_step1, dive_step2, dive_step3] using h3)
  have hp1 : (preCollision fixedCube
      (steps fixedCube (3/250) 0 (steps fixedCube (3/250) 1 divingWorld))).obj2.velocity =
      ⟨1/100, -25/2, 0⟩ := by
    simp only [steps, dive_step1]
    simp [preCollision, aabbPhase, rotatePhase, boundaryPhase, diveWorld, fixedCube,
      GameObject.CalculateAABB, GameObject.Rotate, GameObject.SetVelocity, fabsf]
    norm_num
  have hp2 : (preCollision fixedCube
      (steps fixedCube (3/250) 1 (steps fixedCube (3/250) 1 divingWorld))).obj2.velocity =
      ⟨-1/100, -25/2, 0⟩ := by
    simp only [steps, dive_step1, dive_step2]
    simp [preCollision, aabbPhase, rotatePhase, boundaryPhase, diveWorld, fixedCube,
      GameObject.CalculateAABB, GameObject.Rotate, GameObject.SetVelocity, fabsf]
    norm_num
  have hp3 : (preCollision fixedCube
      (steps fixedCube (3/250) 2 (steps fixedCube (3/250) 1 divingWorld))).obj2.velocity =
      ⟨-1/100, -25/2, 0⟩ := by
    simp only [steps, dive_step1, dive_step2, dive_step3]
    simp [preCollision, aabbPhase, rotatePhase, boundaryPhase, diveWorld, fixedCube,
      GameObject.CalculateAABB, GameObject.Rotate, GameObject.SetVelocity, fabsf]
    norm_num
  have hv1 := h.2.2.2.2.1 1 (by norm_num) (by norm_num)
  have hv2 := h.2.2.2.2.1 2 (by norm_num) (by norm_num)
  have hv3 := h.2.2.2.2.1 3 (by norm_num) (by norm_num)
  refine ⟨(h.1 1 (by norm_num) (by norm_num)).mpr (by norm_num), ?_,
    (h.1 3 (by norm_num) (by norm_num)).mpr (by norm_num), ?_, ?_, ?_, ?_, ?_⟩
  · rw [Bool.eq_false_iff]
    intro hh
    exact absurd ((h.1 2 (by norm_num) (by norm_num)).mp hh) (by norm_num)
  · rw [h.2.2.1, ceil_half]
  · simp [steps, dive_step1, diveWorld]
  · rw [hv1.2, hv1.1]
    simp only [Nat.sub_self, hp1]
    norm_num
  · rw [hv2.2, hv2.1]
    simp only [Nat.add_one_sub_one, hp2]
    norm_num
  · rw [hv3.2, hv3.1]
    simp only [Nat.add_one_sub_one, hp3]
    norm_num

/-- C14: start from accumulator 0 and timebase `t0` with `physicsStep > 0` and
let `checkTime` be called at the times of a finite list, no call observing
`time - timebase > 0.25`.  Then every call returns (given fuel above
`floor(0.25 / physicsStep) + 1`), and after every call
`physicsStep * (number of update invocations so far) + accumulator =
timebase - t0` with `0 <= accumulator < physicsStep`, every invocation having
had the argument `physicsStep`.  A call at `now` with
`now - timebase > physicsStep` sets the timebase to `now` and runs
`floor((accumulator + now - timebase) / physicsStep)` steps, so after it the
steps and the accumulator account for all of `now - t0`, the time of earlier
skipped calls included.  A call with `now - timebase <= physicsStep` runs no
step and leaves accumulator and timebase as they were.  The times need not be
non-decreasing for this. -/
theorem C14_scheduler_accounts_for_time (times : List ℚ) (c : Clock) (fuel : ℕ)
    (hstep : 0 < c.physicsStep) (hacc : c.accumulator = 0)
    (hfuel : ⌊(1/4 : ℚ) / c.physicsStep⌋.toNat + 1 < fuel)
    (hclamp : ∀ (pre : List ℚ) (now : ℚ) (post : List ℚ) (c' : Clock) (log : List ℚ),
      times = pre ++ now :: post → frames logUpdate fuel pre c [] = some (c', log) →
        now - c'.timebase ≤ 1/4) :
    (∀ pre post : List ℚ, times = pre ++ post →
      ∃ c' log, frames logUpdate fuel pre c [] = some (c', log) ∧
        (∀ d ∈ log, d = c.physicsStep) ∧
        c.physicsStep * log.length + c'.accumulator = c'.timebase - c.timebase ∧
        0 ≤ c'.accumulator ∧ c'.accumulator < c.physicsStep) ∧
    (∀ (now : ℚ) (k : Clock) (log : List ℚ), now - k.timebase ≤ k.physicsStep →
      ∃ k', checkTime logUpdate fuel now k log = some (k', log) ∧
        k'.accumulator = k.accumulator ∧ k'.timebase = k.timebase) ∧
    (∀ (pre : List ℚ) (now : ℚ) (post : List ℚ), times = pre ++ now :: post →
      ∃ c1 log1 c2 log2,
        frames logUpdate fuel pre c [] = some (c1, log1) ∧
        checkTime logUpdate fuel now c1 log1 = some (c2, log2) ∧
        frames logUpdate fuel (pre ++ [now]) c [] = some (c2, log2) ∧
        (c.physicsStep < now - c1.timebase →
          c2.timebase = now ∧
          log2 = List.replicate
            ⌊(c1.accumulator + (now - c1.timebase)) / c.physicsStep⌋.toNat c.physicsStep ++
              log1 ∧
          c2.accumulator = (c1.accumulator + (now - c1.timebase)) -
            c.physicsStep * ⌊(c1.accumulator + (now - c1.timebase)) / c.physicsStep⌋ ∧
          c.physicsStep * log2.length + c2.accumulator = now - c.timebase) ∧
        (now - c1.timebase ≤ c.physicsStep →
          c2.timebase = c1.timebase ∧ c2.accumulator = c1.accumulator ∧ log2 = log1)) := by
  have step : ∀ (pre : List ℚ) (now : ℚ) (post : List ℚ) (c1 : Clock) (log1 : List ℚ),
      times = pre ++ now :: post → frames logUpdate fuel pre c [] = some (c1, log1) →
      c1.physicsStep = c.physicsStep → (∀ d ∈ log1, d = c.physicsStep) →
      c.physicsStep * log1.length + c1.accumulator = c1.timebase - c.timebase →
      0 ≤ c1.accumulator → c1.accumulator < c.physicsStep →
      ∃ c2 log2, checkTime logUpdate fuel now c1 log1 = some (c2, log2) ∧
        frames logUpdate fuel (pre ++ [now]) c [] = some (c2, log2) ∧
        c2.physicsStep = c.physicsStep ∧
        c.physicsStep * log2.length + c2.accumulator = c2.timebase - c.timebase ∧
        0 ≤ c2.accumulator ∧ c2.accumulator < c.physicsStep ∧
        (∀ d ∈ log2, d = c.physicsStep) ∧
        (c.physicsStep < now - c1.timebase →
          c2.timebase = now ∧
          log2 = List.replicate
            ⌊(c1.accumulator + (now - c1.timebase)) / c.physicsStep⌋.toNat c.physicsStep ++
              log1 ∧
          c2.accumulator = (c1.accumulator + (now - c1.timebase)) -
            c.physicsStep * ⌊(c1.accumulator + (now - c1.timebase)) / c.physicsStep⌋) ∧
        (now - c1.timebase ≤ c.physicsStep →
          c2.timebase = c1.timebase ∧ c2.accumulator = c1.accumulator ∧ log2 = log1) := by
    intro pre now post c1 log1 hsplit hfr hp hall hinv h0 h1
    have hmax := hclamp pre now post c1 log1 hsplit hfr
    obtain ⟨c2, log2, hct, hp2, hinv2, h02, h12, hall2, hproc, hskip⟩ :=
      checkTime_keeps_invariant fuel now c.timebase c1 log1 (by rw [hp]; exact hstep)
        (by rw [hp]; exact hfuel) (by rw [hp]; exact hinv) h0 (by rw [hp]; exact h1)
        (by rw [hp]; exact hall) hmax
    rw [hp] at hp2 hinv2 h12 hall2 hproc hskip
    refine ⟨c2, log2, hct, ?_, hp2, hinv2, h02, h12, hall2, hproc, hskip⟩
    rw [frames_append, hfr]
    exact hct
  have key : ∀ pre post : List ℚ, times = pre ++ post →
      ∃ c' log, frames logUpdate fuel pre c [] = some (c', log) ∧
        c'.physicsStep = c.physicsStep ∧
        (∀ d ∈ log, d = c.physicsStep) ∧
        c.physicsStep * log.length + c'.accumulator = c'.timebase - c.timebase ∧
        0 ≤ c'.accumulator ∧ c'.accumulator < c.physicsStep := by
    intro pre
    induction pre using List.reverseRecOn with
    | nil =>
      intro post _
      refine ⟨c, [], rfl, rfl, ?_, ?_, ?_, ?_⟩
      · intro d hd; simp at hd
      · rw [hacc]; simp
      · rw [hacc]
      · rw [hacc]; exact hstep
    | append_singleton pre now ih =>
      intro post hsplit
      have hsplit' : times = pre ++ now :: post := by
        rw [hsplit, List.append_assoc]; rfl
      obtain ⟨c1, log1, hfr, hp, hall, hinv, h0, h1⟩ := ih (now :: post) hsplit'
      obtain ⟨c2, log2, _, hfr2, hp2, hinv2, h02, h12, hall2, _, _⟩ :=
        step pre now post c1 log1 hsplit' hfr hp hall hinv h0 h1
      exact ⟨c2, log2, hfr2, hp2, hall2, hinv2, h02, h12⟩
  refine ⟨?_, ?_, ?_⟩
  · intro pre post hsplit
    obtain ⟨c', log, hfr, _, hall, hinv, h0, h1⟩ := key pre post hsplit
    exact ⟨c', log, hfr, hall, hinv, h0, h1⟩
  · intro now k log hdt
    exact ⟨_, checkTime_idle logUpdate fuel now k log (not_lt.mpr hdt), rfl, rfl⟩
  · intro pre now post hsplit
    obtain ⟨c1, log1, hfr, hp, hall, hinv, h0, h1⟩ := key pre (now :: post) hsplit
    obtain ⟨c2, log2, hct, hfr2, _, hinv2, _, _, _, hproc, hskip⟩ :=
      step pre now post c1 log1 hsplit hfr hp hall hinv h0 h1
    refine ⟨c1, log1, c2, log2, hfr, hct, hfr2, ?_, hskip⟩
    intro hrun
    obtain ⟨ht, hl, ha⟩ := hproc hrun
    refine ⟨ht, hl, ha, ?_⟩
    rw [hinv2, ht]

/-- C14 (witness): `physicsStep = 0.012`, calls at 0.01 and 0.05 from time 0.
The first call is too early and changes nothing; the second sets the timebase
to 0.05 and runs 4 steps of 0.012, leaving 0.002 in the accumulator, so the
0.01 of the skipped call is counted: 4 * 0.012 + 0.002 = 0.05. -/
theorem C14_scheduler_accounts_for_time_witness :
    ∃ c2 log2, frames logUpdate 23 [1/100, 1/20] (startClock (3/250)) [] = some (c2, log2) ∧
      c2.timebase = 1/20 ∧
      log2 = [3/250, 3/250, 3/250, 3/250] ∧
      c2.accumulator = 1/500 ∧
      (3/250 : ℚ) * log2.length + c2.accumulator = 1/20 - 0 := by
  have hfl : ⌊(1/4 : ℚ) / (3/250)⌋ = 20 := by
    rw [Int.floor_eq_iff]; norm_num
  have hfl4 : ⌊((0 : ℚ) + (1/20 - 0)) / (3/250)⌋ = 4 := by
    rw [Int.floor_eq_iff]; norm_num
  have hidle := checkTime_idle logUpdate 23 (1/100) (startClock (3/250)) []
    (by norm_num [startClock])
  have h := C14_scheduler_accounts_for_time [1/100, 1/20] (startClock (3/250)) 23
    (by norm_num [startClock]) rfl
    (by simp only [startClock]; rw [hfl]; decide)
    (by
      intro pre now post c' log hsplit hfr
      rcases pre with _ | ⟨a, _ | ⟨b, rest⟩⟩
      · simp only [List.nil_append, List.cons.injEq] at hsplit
        simp only [frames, Option.some.injEq, Prod.mk.injEq] at hfr
        rw [← hsplit.1, ← hfr.1]
        norm_num [startClock]
      · simp only [List.cons_append, List.nil_append, List.cons.injEq] at hsplit
        rw [← hsplit.1] at hfr
        simp only [frames, hidle, Option.some.injEq, Prod.mk.injEq] at hfr
        rw [← hsplit.2.1, ← hfr.1]
        norm_num [startClock]
      · simp at hsplit)
  obtain ⟨c1, log1, c2, log2, hfr1, _, hfr2, hproc, _⟩ := h.2.2 [1/100] (1/20) [] rfl
  simp only [frames, hidle, Option.some.injEq, Prod.mk.injEq] at hfr1
  obtain ⟨hc1, hl1⟩ := hfr1
  subst hc1
  subst hl1
  obtain ⟨ht, hl, ha, hsum⟩ := hproc (by norm_num [startClock])
  simp only [startClock] at ht hl ha hsum
  rw [hfl4] at hl ha
  refine ⟨c2, log2, hfr2, ht, ?_, ?_, ?_⟩
  · rw [hl]; rfl
  · rw [ha]; norm_num
  · simpa [startClock] using hsum

/-- C15 (counterexample): both cubes at (1, 1, 0), the moving one with
velocity (0.5, 0.5, 0) and the latch clear.  `|p.x| = 1 > 0.9`, the
recomputed boxes intersect, and the latch ends set, but `|p.y| = 1 > 0.8` as
well, so the boundary phase also negates velocity.y: the velocity after the
collision phase is (0.5, -0.5, 0), not the velocity (0.5, 0.5, 0) the call
started with. -/
theorem C15_velocity_y_not_restored :
    |(wallWorld 1).obj2.position.x| > 9/10 ∧
      overlapAt fixedCube (wallWorld 1) = true ∧
      (wallWorld 1).antiStuck = false ∧
      (collisionPhase (preCollision fixedCube (wallWorld 1))).antiStuck = true ∧
      (collisionPhase (preCollision fixedCube (wallWorld 1))).obj2.velocity = ⟨1/2, -1/2, 0⟩ ∧
      (wallWorld 1).obj2.velocity = ⟨1/2, 1/2, 0⟩ ∧
      (collisionPhase (preCollision fixedCube (wallWorld 1))).obj2.velocity ≠
        (wallWorld 1).obj2.velocity := by
  have hv : (collisionPhase (preCollision fixedCube (wallWorld 1))).obj2.velocity =
      ⟨1/2, -1/2, 0⟩ := by
    simp [collisionPhase, collisionFires, preCollision, aabbPhase, rotatePhase, boundaryPhase,
      wallWorld, fixedCube, GameObject.CalculateAABB, GameObject.Rotate,
      GameObject.SetVelocity, fabsf, smallCube, stillCube, cubeBox, TestAABB]
    norm_num
  refine ⟨by norm_num [wallWorld, smallCube], ?_, rfl, ?_, hv, rfl, ?_⟩
  · simp [overlapAt, preCollision, aabbPhase, rotatePhase, boundaryPhase,
      wallWorld, fixedCube, GameObject.CalculateAABB, GameObject.Rotate,
      GameObject.SetVelocity, fabsf, smallCube, stillCube, cubeBox, TestAABB]
    norm_num
  · simp [collisionPhase, collisionFires, preCollision, aabbPhase, rotatePhase, boundaryPhase,
      wallWorld, fixedCube, GameObject.CalculateAABB, GameObject.Rotate,
      GameObject.SetVelocity, fabsf, smallCube, stillCube, cubeBox, TestAABB]
    norm_num
  · rw [hv]
    simp [wallWorld, smallCube]
    norm_num

/-- C15 (amended): for every state at the start of `update` in which the
moving body has `|position.x| > 0.9`, the recomputed boxes intersect and
`antiStuck` is false, the boundary phase and the collision phase both negate
velocity.x, so velocity.x after the collision phase equals velocity.x at the
start of the call, and `antiStuck` becomes true; velocity.y and velocity.z
are as the boundary phase left them (negated when `|position.y| > 0.8`,
`|position.z| > 1.0`), so the whole velocity equals the one at the start of
the call when `|position.y| <= 0.8` and `|position.z| <= 1.0`. -/
theorem C15_double_bounce_cancels_on_x {Ω : Type} (G : Geometry Ω) (dt : ℚ) (w : World Ω)
    (hx : |w.obj2.position.x| > 9/10) (hhit : overlapAt G w = true)
    (hlatch : w.antiStuck = false) :
    (boundaryPhase w).obj2.velocity.x = -w.obj2.velocity.x ∧
      (collisionPhase (preCollision G w)).obj2.velocity.x =
        -(preCollision G w).obj2.velocity.x ∧
      (collisionPhase (preCollision G w)).obj2.velocity.x = w.obj2.velocity.x ∧
      (collisionPhase (preCollision G w)).obj2.velocity.y =
        (if |w.obj2.position.y| > 8/10 then -w.obj2.velocity.y else w.obj2.velocity.y) ∧
      (collisionPhase (preCollision G w)).obj2.velocity.z =
        (if |w.obj2.position.z| > 1 then -w.obj2.velocity.z else w.obj2.velocity.z) ∧
      (|w.obj2.position.y| ≤ 8/10 → |w.obj2.position.z| ≤ 1 →
        (collisionPhase (preCollision G w)).obj2.velocity = w.obj2.velocity) ∧
      (collisionPhase (preCollision G w)).antiStuck = true ∧
      (update G dt w).antiStuck = true := by
  have hr : reflectsAt G w = true := by rw [reflectsAt_eq, hhit, hlatch]; rfl
  have hf : collisionFires (preCollision G w) = true := hr
  have hb : (boundaryPhase w).obj2.velocity =
      ⟨-w.obj2.velocity.x,
       if |w.obj2.position.y| > 8/10 then -w.obj2.velocity.y else w.obj2.velocity.y,
       if |w.obj2.position.z| > 1 then -w.obj2.velocity.z else w.obj2.velocity.z⟩ := by
    rw [boundaryPhase_obj2]
    simp only [fabsf_eq_abs, if_pos hx]
  have hc : (collisionPhase (preCollision G w)).obj2.velocity =
      ⟨w.obj2.velocity.x,
       if |w.obj2.position.y| > 8/10 then -w.obj2.velocity.y else w.obj2.velocity.y,
       if |w.obj2.position.z| > 1 then -w.obj2.velocity.z else w.obj2.velocity.z⟩ := by
    rw [collisionPhase_obj2_velocity, hf, preCollision_obj2_velocity, hb]
    simp [Vec3.negX]
  refine ⟨by rw [hb], ?_, by rw [hc], by rw [hc], by rw [hc], ?_, ?_, ?_⟩
  · rw [hc, preCollision_obj2_velocity, hb]
    simp
  · intro hy hz
    rw [hc, if_neg (not_lt.mpr hy), if_neg (not_lt.mpr hz)]
  · rw [collisionPhase_antiStuck, hf]
  · rw [update_antiStuck, hr]

/-- C15 (witness of the amended statement): both cubes at (1, 0, 0), the
moving one with velocity (0.5, 0.5, 0): past the X bound only, boxes
intersecting, latch clear; the velocity after the collision phase is the one
the call started with and the latch is set. -/
theorem C15_double_bounce_cancels_on_x_witness :
    (collisionPhase (preCollision fixedCube (wallWorld 0))).obj2.velocity =
        (wallWorld 0).obj2.velocity ∧
      (update fixedCube (3/250) (wallWorld 0)).antiStuck = true := by
  have h := C15_double_bounce_cancels_on_x fixedCube (3/250) (wallWorld 0)
    (by norm_num [wallWorld, smallCube])
    (by
      simp [overlapAt, preCollision, aabbPhase, rotatePhase, boundaryPhase,
        wallWorld, fixedCube, GameObject.CalculateAABB, GameObject.Rotate,
        GameObject.SetVelocity, fabsf, smallCube, stillCube, cubeBox, TestAABB]
      norm_num)
    rfl
  exact ⟨h.2.2.2.2.2.1 (by norm_num [wallWorld, smallCube]) (by norm_num [wallWorld, smallCube]),
    h.2.2.2.2.2.2.2⟩

end AABB3D
